import Mathlib

/-!
Verification of the `sequence` scalar-function parser of gluten's ClickHouse
backend (`cpp-ch/local-engine/Parser/scalar_function_parser/sequence.cpp`) and
of `StorageJoinFromReadBuffer::getRightSampleBlock`
(`cpp-ch/local-engine/Storages/StorageJoinFromReadBuffer.h`), over a shallow
embedding of the ActionsDAG node model.

The parser lowers `sequence(start, end, step?)` into a DAG of ClickHouse
primitives (`range`, `plus`, `minus`, `modulo`, `equals`, `lessOrEquals`,
`isNull`, `assumeNotNull`, `if`, `multiIf`).  We embed the node model, the
parser itself (translated line by line from the source), and a row-level
evaluation semantics for the engine primitives (modelled from the spec's
collaborator contract, since the engine itself is an external dependency),
and prove/refute the specification claims against them.
-/

namespace GlutenSeq

/-- Semantic type descriptor of a DAG node: the integer base type (numeric
width promotion is an external engine contract and is not modelled), arrays,
and the nullable wrapper, mirroring `DB::IDataType` as used by the parser. -/
inductive CHType where
  | int : CHType
  | array (elem : CHType) : CHType
  | nullable (inner : CHType) : CHType
deriving DecidableEq, Repr

/-- Constant payload of a constant node: an integer `DB::Field` or the null
`Field()`. -/
inductive CVal where
  | intv (i : Int) : CVal
  | nullv : CVal
deriving DecidableEq, Repr

/-- Whether a type descriptor is the nullable wrapper
(`IDataType::isNullable`). -/
def isNullable : CHType → Bool
  | .nullable _ => true
  | _ => false

/-- Wrap a type in the nullable wrapper unless it already is nullable
(`DB::makeNullable`). -/
def makeNullable : CHType → CHType
  | .nullable t => .nullable t
  | t => .nullable t

/-- Strip one nullable wrapper (`DB::removeNullable`). -/
def removeNullable : CHType → CHType
  | .nullable t => t
  | t => t

/-- Common supertype of two branch types, as the engine's type resolution
computes it for conditionals: equal types stay, a type and its nullable
version widen to the nullable version. -/
def superType (a b : CHType) : CHType :=
  if a = b then a
  else if makeNullable a = makeNullable b then makeNullable a
  else .int

/-- Result type of `multiIf`: the common supertype of all value branches
(the arguments at odd positions plus the trailing else). -/
def multiIfResultType : List CHType → CHType
  | [t] => t
  | _ :: v :: rest => superType v (multiIfResultType rest)
  | [] => .int

/-- Modelled from the spec: result-type resolution of the engine primitives
(§4.1 and §6 collaborator contracts; the engine's own type resolution is an
external dependency).  Comparisons and arithmetic inherit nullability from
their arguments, `isNull` is never nullable, `assumeNotNull` strips the
wrapper, conditionals take the common supertype of their value branches and
`range` produces an array. -/
def resultType (nm : String) (argTys : List CHType) : CHType :=
  match nm with
  | "isNull" => .int
  | "assumeNotNull" => removeNullable (argTys.headD .int)
  | "lessOrEquals" => if argTys.any isNullable then .nullable .int else .int
  | "equals" => if argTys.any isNullable then .nullable .int else .int
  | "plus" => if argTys.any isNullable then .nullable .int else .int
  | "minus" => if argTys.any isNullable then .nullable .int else .int
  | "modulo" => if argTys.any isNullable then .nullable .int else .int
  | "if" =>
    match argTys with
    | [_, a, b] => superType a b
    | _ => .int
  | "multiIf" =>
    match argTys with
    | _ :: rest => multiIfResultType rest
    | [] => .int
  | "range" => .array (removeNullable (argTys.headD .int))
  | _ => .int

mutual
/-- One node of the expression DAG: an input column, a typed constant, a
type conversion, or a function application (`ActionsDAG::Node`). -/
inductive NodeExpr where
  | input (nm : String) (ty : CHType) : NodeExpr
  | const (ty : CHType) (v : CVal) : NodeExpr
  | cast (ty : CHType) (n : NodeExpr) : NodeExpr
  | fn (nm : String) (args : NodeArgs) : NodeExpr
deriving DecidableEq, Repr

/-- Ordered children of a function-application node. -/
inductive NodeArgs where
  | nil : NodeArgs
  | cons (hd : NodeExpr) (tl : NodeArgs) : NodeArgs
deriving DecidableEq, Repr
end

/-- Build a child sequence from a list. -/
def na (l : List NodeExpr) : NodeArgs := l.foldr .cons .nil

mutual
/-- Static result type of a node, resolved bottom-up. -/
def nodeType : NodeExpr → CHType
  | .input _ ty => ty
  | .const ty _ => ty
  | .cast ty _ => ty
  | .fn nm args => resultType nm (argTypes args)

/-- Static result types of a child sequence. -/
def argTypes : NodeArgs → List CHType
  | .nil => []
  | .cons h t => nodeType h :: argTypes t
end

/-- State of the DAG builder: the nodes added so far, in insertion order. -/
abbrev DagState := List NodeExpr

/-- Append a node to the builder unless a structurally identical node is
already present (the builder deduplicates by canonical name, which is
derived from the node's structure). -/
def addNode (dag : DagState) (n : NodeExpr) : DagState :=
  if n ∈ dag then dag else dag ++ [n]

/-- Add a constant column node (`addColumnToActionsDAG`). -/
def addColumnToActionsDAG (dag : DagState) (ty : CHType) (v : CVal) :
    DagState × NodeExpr :=
  let n := NodeExpr.const ty v
  (addNode dag n, n)

/-- Add or find a function-application node (`toFunctionNode`). -/
def toFunctionNode (dag : DagState) (nm : String) (args : List NodeExpr) :
    DagState × NodeExpr :=
  let n := NodeExpr.fn nm (na args)
  (addNode dag n, n)

/-- Modelled from the spec: `convertType(node, targetType)` of the DAG
builder (§4.1); the implementation `ActionsDAGUtil::convertNodeType` is
outside the provided sources.  It adds a node reinterpreting the input at
the target type. -/
def convertNodeType (dag : DagState) (n : NodeExpr) (ty : CHType) :
    DagState × NodeExpr :=
  let c := NodeExpr.cast ty n
  (addNode dag c, c)

/-- Modelled from the spec: step 6 of §4.4 — the node returned after the
output-type coercion required by the caller's expected result type, if any;
the implementation `FunctionParser::convertNodeTypeIfNeeded` is outside the
provided sources.  `none` means the caller requests no coercion. -/
def coerceNodeIfNeeded (outputType : Option CHType) (n : NodeExpr) : NodeExpr :=
  match outputType with
  | none => n
  | some t => if nodeType n = t then n else .cast t n

/-- Modelled from the spec: the builder state after the output-type coercion
of `coerceNodeIfNeeded` (a conversion node is added only when a coercion is
required). -/
def coerceStateIfNeeded (outputType : Option CHType) (n : NodeExpr)
    (dag : DagState) : DagState :=
  match outputType with
  | none => dag
  | some t => if nodeType n = t then dag else (convertNodeType dag n t).1

/-- Translation-time failures of a function handler. -/
inductive ParseError where
  | arityMismatch (fname : String) : ParseError
deriving DecidableEq, Repr

namespace FunctionParserSequence

/-- Registered name of the handler. -/
def name : String := "sequence"

/-- Data flow of `FunctionParserSequence::parse` after the arity check,
translated line by line from the source (`sequence.cpp`, lines 69-134):
the node the handler returns.  `stepOpt` is the optional third argument;
each `let` is the node built by the corresponding
`toFunctionNode`/`addColumnToActionsDAG` call of the source (the
accompanying builder-state additions are in `parseCheckedState`). -/
def parseCheckedResult (startArg endArg : NodeExpr) (stepOpt : Option NodeExpr)
    (outputType : Option CHType) : NodeExpr :=
  let oneConstNode := NodeExpr.const .int (.intv 1)
  let stepArg :=
    match stepOpt with
    | some s => s
    | none =>
      let minusOneConstNode := NodeExpr.const .int (.intv (-1))
      let startLeEnd := NodeExpr.fn "lessOrEquals" (na [startArg, endArg])
      NodeExpr.fn "if" (na [startLeEnd, oneConstNode, minusOneConstNode])
  let isArrNullable := isNullable (nodeType startArg)
  let isValNullable := isNullable (nodeType endArg)
  let isStepNullable := isNullable (nodeType stepArg)
  let startNotNull := NodeExpr.fn "assumeNotNull" (na [startArg])
  let endNotNull := NodeExpr.fn "assumeNotNull" (na [endArg])
  let stepNotNull := NodeExpr.fn "assumeNotNull" (na [stepArg])
  let startIsNull := NodeExpr.fn "isNull" (na [startArg])
  let endIsNull := NodeExpr.fn "isNull" (na [endArg])
  let stepIsNull := NodeExpr.fn "isNull" (na [stepArg])
  let endMinusStart := NodeExpr.fn "minus" (na [endArg, startArg])
  let moduloStep := NodeExpr.fn "modulo" (na [endMinusStart, stepArg])
  let zeroConstNode := NodeExpr.const .int (.intv 0)
  let moduloStepEqZero := NodeExpr.fn "equals" (na [moduloStep, zeroConstNode])
  let trickyStep := NodeExpr.fn "if" (na [stepIsNull, oneConstNode, stepNotNull])
  let endPlusStep := NodeExpr.fn "plus" (na [endNotNull, stepNotNull])
  let range1 := NodeExpr.fn "range" (na [startNotNull, endPlusStep, trickyStep])
  let range2 := NodeExpr.fn "range" (na [startNotNull, endNotNull, trickyStep])
  if !isArrNullable && !isValNullable && !isStepNullable then
    let retNode := NodeExpr.fn "if" (na [moduloStepEqZero, range1, range2])
    coerceNodeIfNeeded outputType retNode
  else
    let rty := makeNullable (nodeType range1)
    let wrapRange1 := NodeExpr.cast rty range1
    let wrapRange2 := NodeExpr.cast rty range2
    let nullConstNode := NodeExpr.const rty .nullv
    let resultNode := NodeExpr.fn "multiIf"
      (na [startIsNull, nullConstNode, endIsNull, nullConstNode, stepIsNull,
           nullConstNode, moduloStepEqZero, wrapRange1, wrapRange2])
    coerceNodeIfNeeded outputType resultNode

/-- Builder-state side of `FunctionParserSequence::parse` after the arity
check: the same `toFunctionNode`/`addColumnToActionsDAG` calls as
`parseCheckedResult`, threaded through `addNode` in source order. -/
def parseCheckedState (startArg endArg : NodeExpr) (stepOpt : Option NodeExpr)
    (outputType : Option CHType) (dag0 : DagState) : DagState :=
  let oneConstNode := NodeExpr.const .int (.intv 1)
  let dag1 := addNode dag0 oneConstNode
  let sd :=
    match stepOpt with
    | some s => (dag1, s)
    | none =>
      let minusOneConstNode := NodeExpr.const .int (.intv (-1))
      let startLeEnd := NodeExpr.fn "lessOrEquals" (na [startArg, endArg])
      let stepIf := NodeExpr.fn "if" (na [startLeEnd, oneConstNode, minusOneConstNode])
      (addNode (addNode (addNode dag1 minusOneConstNode) startLeEnd) stepIf,
       stepIf)
  let dag2 := sd.1
  let stepArg := sd.2
  let isArrNullable := isNullable (nodeType startArg)
  let isValNullable := isNullable (nodeType endArg)
  let isStepNullable := isNullable (nodeType stepArg)
  let startNotNull := NodeExpr.fn "assumeNotNull" (na [startArg])
  let endNotNull := NodeExpr.fn "assumeNotNull" (na [endArg])
  let stepNotNull := NodeExpr.fn "assumeNotNull" (na [stepArg])
  let startIsNull := NodeExpr.fn "isNull" (na [startArg])
  let endIsNull := NodeExpr.fn "isNull" (na [endArg])
  let stepIsNull := NodeExpr.fn "isNull" (na [stepArg])
  let endMinusStart := NodeExpr.fn "minus" (na [endArg, startArg])
  let moduloStep := NodeExpr.fn "modulo" (na [endMinusStart, stepArg])
  let zeroConstNode := NodeExpr.const .int (.intv 0)
  let moduloStepEqZero := NodeExpr.fn "equals" (na [moduloStep, zeroConstNode])
  let trickyStep := NodeExpr.fn "if" (na [stepIsNull, oneConstNode, stepNotNull])
  let endPlusStep := NodeExpr.fn "plus" (na [endNotNull, stepNotNull])
  let range1 := NodeExpr.fn "range" (na [startNotNull, endPlusStep, trickyStep])
  let range2 := NodeExpr.fn "range" (na [startNotNull, endNotNull, trickyStep])
  let dag3 :=
    [startNotNull, endNotNull, stepNotNull, startIsNull, endIsNull,
     stepIsNull, endMinusStart, moduloStep, zeroConstNode, moduloStepEqZero,
     trickyStep, endPlusStep, range1, range2].foldl addNode dag2
  if !isArrNullable && !isValNullable && !isStepNullable then
    let retNode := NodeExpr.fn "if" (na [moduloStepEqZero, range1, range2])
    coerceStateIfNeeded outputType retNode (addNode dag3 retNode)
  else
    let rty := makeNullable (nodeType range1)
    let wrapRange1 := NodeExpr.cast rty range1
    let wrapRange2 := NodeExpr.cast rty range2
    let nullConstNode := NodeExpr.const rty .nullv
    let resultNode := NodeExpr.fn "multiIf"
      (na [startIsNull, nullConstNode, endIsNull, nullConstNode, stepIsNull,
           nullConstNode, moduloStepEqZero, wrapRange1, wrapRange2])
    let dag4 := addNode (addNode (addNode (addNode dag3 wrapRange1)
      wrapRange2) nullConstNode) resultNode
    coerceStateIfNeeded outputType resultNode dag4

/-- Body of `FunctionParserSequence::parse` after the arity check: the
updated builder state and the returned node. -/
def parseChecked (startArg endArg : NodeExpr) (stepOpt : Option NodeExpr)
    (outputType : Option CHType) (dag0 : DagState) :
    DagState × Except ParseError NodeExpr :=
  (parseCheckedState startArg endArg stepOpt outputType dag0,
   .ok (parseCheckedResult startArg endArg stepOpt outputType))

/-- The handler `FunctionParserSequence::parse`: validates the arity (two or
three already-translated argument nodes) and builds the DAG subtree for
`sequence`.  Returns the updated builder state and the result node, or the
arity error with the builder untouched. -/
def parse (parsedArgs : List NodeExpr) (outputType : Option CHType)
    (dag0 : DagState) : DagState × Except ParseError NodeExpr :=
  match parsedArgs with
  | [startArg, endArg] => parseChecked startArg endArg none outputType dag0
  | [startArg, endArg, stepArg] =>
    parseChecked startArg endArg (some stepArg) outputType dag0
  | _ => (dag0, .error (.arityMismatch name))

end FunctionParserSequence

/-! ## Row-level evaluation semantics of the engine primitives -/

/-- Runtime value of one row of a column: an integer, an integer array, or
SQL null. -/
inductive Value where
  | intv (i : Int) : Value
  | arrv (xs : List Int) : Value
  | nullv : Value
deriving DecidableEq, Repr

/-- Runtime value of a constant node. -/
def CVal.toValue : CVal → Value
  | .intv i => .intv i
  | .nullv => .nullv

/-- Ascending half-open integer progression `a, a+c, a+2c, ...` strictly
below `b`, with explicit fuel (adequate when `0 < c` and the fuel is at
least `(b - a).toNat`). -/
def rangeUpF : Nat → Int → Int → Int → List Int
  | 0, _, _, _ => []
  | f + 1, a, b, c => if a < b then a :: rangeUpF f (a + c) b c else []

/-- Descending half-open integer progression `a, a+c, a+2c, ...` strictly
above `b`, with explicit fuel (adequate when `c < 0` and the fuel is at
least `(a - b).toNat`). -/
def rangeDownF : Nat → Int → Int → Int → List Int
  | 0, _, _, _ => []
  | f + 1, a, b, c => if b < a then a :: rangeDownF f (a + c) b c else []

/-- Modelled from the spec: the value of the engine primitive
`range(a, b, c)` — the half-open progression from `a` towards `b` with
step `c` (§6 collaborator contract; the primitive itself is an external
engine dependency).  Only meaningful for `c ≠ 0`; `range` rejects a zero
step (see `applyFn`). -/
def rangeList (a b c : Int) : List Int :=
  if 0 < c then rangeUpF (b - a).toNat a b c
  else if c < 0 then rangeDownF (a - b).toNat a b c
  else []

/-- Apply an integer binary operation under SQL null propagation: a null
operand yields null, two integers apply the operation (which may itself
fail, e.g. division by zero), anything else is a type error. -/
def liftBinOp (f : Int → Int → Option Int) : Value → Value → Option Value
  | .nullv, _ => some .nullv
  | _, .nullv => some .nullv
  | .intv x, .intv y => (f x y).map .intv
  | _, _ => none

/-- First-match-wins selection of `multiIf`: the values alternate condition,
branch, condition, branch, ..., else; a null or zero condition falls
through, a nonzero condition selects its branch. -/
def multiIfSel : List Value → Option Value
  | [v] => some v
  | .intv i :: v :: rest => if i = 0 then multiIfSel rest else some v
  | .nullv :: _ :: rest => multiIfSel rest
  | _ => none

/-- Modelled from the spec: row-level semantics of the engine primitives the
parser targets (§6 collaborator contract — `range`, arithmetic, comparison,
null predicates, null assertion, conditionals; the engine itself is an
external dependency).  Arithmetic and comparisons propagate null; `modulo`
fails on a zero divisor; `range` fails on a zero step; `assumeNotNull` of
null yields the default value of the inner type; a null condition of
`if`/`multiIf` counts as false.  Branches of conditionals are evaluated
eagerly (all arguments are computed before selection), matching the
columnar execution the source's "tricky step" comment works around. -/
def applyFn (nm : String) (vs : List Value) : Option Value :=
  match nm, vs with
  | "plus", [a, b] => liftBinOp (fun x y => some (x + y)) a b
  | "minus", [a, b] => liftBinOp (fun x y => some (x - y)) a b
  | "modulo", [a, b] =>
    liftBinOp (fun x y => if y = 0 then none else some (Int.tmod x y)) a b
  | "lessOrEquals", [a, b] =>
    liftBinOp (fun x y => some (if x ≤ y then 1 else 0)) a b
  | "equals", [a, b] =>
    liftBinOp (fun x y => some (if x = y then 1 else 0)) a b
  | "isNull", [v] => some (.intv (if v = .nullv then 1 else 0))
  | "assumeNotNull", [v] =>
    some (match v with | .nullv => .intv 0 | w => w)
  | "if", [c, a, b] =>
    match c with
    | .intv i => some (if i = 0 then b else a)
    | .nullv => some b
    | _ => none
  | "multiIf", l => multiIfSel l
  | "range", [a, b, c] =>
    match a, b, c with
    | .intv x, .intv y, .intv z =>
      if z = 0 then none else some (.arrv (rangeList x y z))
    | _, _, _ => none
  | _, _ => none

mutual
/-- Evaluate a node on one row, `env` giving the values of the input
columns.  Failure (`none`) models a thrown engine exception.  A conversion
node keeps the value (the parser only converts to the nullable version of
the same type, and output coercion is not exercised by the claims). -/
def evalNode (env : String → Value) : NodeExpr → Option Value
  | .input nm _ => some (env nm)
  | .const _ v => some v.toValue
  | .cast _ n => evalNode env n
  | .fn nm args => (evalArgs env args).bind (applyFn nm)

/-- Evaluate all children of a function node (eagerly, in order). -/
def evalArgs (env : String → Value) : NodeArgs → Option (List Value)
  | .nil => some []
  | .cons h t => (evalNode env h).bind (fun v => (evalArgs env t).map (v :: ·))
end

/-! ## Convenience forms for stating the claims -/

/-- Constant integer argument node. -/
def constInt (i : Int) : NodeExpr := .const .int (.intv i)

/-- Input-column argument node of integer type, nullable iff `b`. -/
def inpN (nm : String) (b : Bool) : NodeExpr :=
  .input nm (if b then .nullable .int else .int)

/-- Environment with no meaningful columns (used with constant arguments). -/
def env0 : String → Value := fun _ => .nullv

/-- Result node of a `sequence` call on the given argument nodes, starting
from an empty builder and with no caller-requested output coercion. -/
def seqNode (args : List NodeExpr) : Except ParseError NodeExpr :=
  (FunctionParserSequence.parse args none []).2

/-- Row value computed by the node a `sequence` call parses to. -/
def seqEvalEnv (args : List NodeExpr) (env : String → Value) : Option Value :=
  match (FunctionParserSequence.parse args none []).2 with
  | .ok n => evalNode env n
  | .error _ => none

/-- Expected list of `sequence(start, end, step)` as the parser compiles it:
the inclusive upper bound (`end + step`) when the remainder
`(end - start) mod step` (C-style truncated modulo, as ClickHouse computes
it) is zero, the exclusive bound otherwise. -/
def seqList (s e st : Int) : List Int :=
  if Int.tmod (e - s) st = 0 then rangeList s (e + st) st else rangeList s e st

/-! ## StorageJoinFromReadBuffer -/

/-- Join kind of the storage (`DB::JoinKind`). -/
inductive JoinKind where
  | inner : JoinKind
  | left : JoinKind
  | right : JoinKind
  | full : JoinKind
  | cross : JoinKind
deriving DecidableEq, Repr

/-- Modelled from the spec: ClickHouse's `isLeftOrFull` predicate on join
kinds (external dependency; true exactly for LEFT and FULL joins). -/
def isLeftOrFull : JoinKind → Bool
  | .left => true
  | .full => true
  | _ => false

/-- One column of a block: its name and static type. -/
structure Column where
  name : String
  ty : CHType
deriving DecidableEq, Repr

/-- Modelled from the spec: ClickHouse's
`JoinCommon::convertColumnToNullable` (external dependency) — wrap the
column's type in the nullable wrapper unless it already is nullable. -/
def convertColumnToNullable (c : Column) : Column :=
  { c with ty := makeNullable c.ty }

/-- A block: an ordered sequence of columns. -/
abbrev Block := List Column

/-- The metadata the storage keeps; `getSampleBlock()` returns a block with
the metadata's columns. -/
structure StorageInMemoryMetadata where
  sampleBlock : Block
deriving DecidableEq, Repr

/-- The fields of `StorageJoinFromReadBuffer` that
`getRightSampleBlock` can see (the method is `const` and reads only
`storage_metadata_`, `use_nulls` and `kind`; the distinct `sample_block`
field is included to record that the method does not use it). -/
structure StorageJoinFromReadBuffer where
  storage_metadata : StorageInMemoryMetadata
  sample_block : Block
  use_nulls : Bool
  kind : JoinKind
deriving DecidableEq, Repr

/-- Translation of `StorageJoinFromReadBuffer::getRightSampleBlock`: copy
the metadata's sample block and, when `use_nulls` is set and the join kind
is LEFT or FULL, convert every column of the copy to nullable. -/
def getRightSampleBlock (s : StorageJoinFromReadBuffer) : Block :=
  let block := s.storage_metadata.sampleBlock
  if s.use_nulls && isLeftOrFull s.kind then
    block.map convertColumnToNullable
  else block

/-! ## Expected shapes of the generated subtree

The following definitions restate, as explicit trees, the shape the spec
describes for the generated subtree; the refinement lemmas below compare
them with what `FunctionParserSequence.parse` actually builds. -/

/-- Non-nullable-asserted projection of an argument. -/
def aNN (n : NodeExpr) : NodeExpr := .fn "assumeNotNull" (na [n])

/-- Null test of an argument. -/
def isNullN (n : NodeExpr) : NodeExpr := .fn "isNull" (na [n])

/-- The synthesized default step `if(start <= end, 1, -1)`. -/
def defaultStep (n1 n2 : NodeExpr) : NodeExpr :=
  .fn "if" (na [.fn "lessOrEquals" (na [n1, n2]), constInt 1, constInt (-1)])

/-- The inclusive-vs-exclusive selection condition as the source builds it:
`(end - start) mod step == 0` over the raw argument nodes. -/
def rawCond (n1 n2 n3 : NodeExpr) : NodeExpr :=
  .fn "equals"
    (na [.fn "modulo" (na [.fn "minus" (na [n2, n1]), n3]), constInt 0])

/-- The selection condition as claim C7 words it: computed from the
non-nullable-asserted projections. -/
def projCond (n1 n2 n3 : NodeExpr) : NodeExpr :=
  .fn "equals"
    (na [.fn "modulo" (na [.fn "minus" (na [aNN n2, aNN n1]), aNN n3]),
         constInt 0])

/-- The step fed to `range`: `if(isNull(step), 1, assumeNotNull(step))`. -/
def trickyStepN (n3 : NodeExpr) : NodeExpr :=
  .fn "if" (na [isNullN n3, constInt 1, aNN n3])

/-- The inclusive range node as the source builds it:
`range(start', end' + step', stepForRange)` — note the upper bound uses the
plain `assumeNotNull` step, not the placeholder-protected one. -/
def rangeInclN (n1 n2 n3 : NodeExpr) : NodeExpr :=
  .fn "range"
    (na [aNN n1, .fn "plus" (na [aNN n2, aNN n3]), trickyStepN n3])

/-- The inclusive range node as claim C6 words it:
`range(start', end' + stepForRange, stepForRange)`. -/
def rangeInclClaimN (n1 n2 n3 : NodeExpr) : NodeExpr :=
  .fn "range"
    (na [aNN n1, .fn "plus" (na [aNN n2, trickyStepN n3]), trickyStepN n3])

/-- The exclusive range node: `range(start', end', stepForRange)`. -/
def rangeExclN (n1 n2 n3 : NodeExpr) : NodeExpr :=
  .fn "range" (na [aNN n1, aNN n2, trickyStepN n3])

/-- The whole generated subtree when no argument is statically nullable:
`if(inclusive, rangeIncl, rangeExcl)`. -/
def seqIfTree (n1 n2 n3 : NodeExpr) : NodeExpr :=
  .fn "if" (na [rawCond n1 n2 n3, rangeInclN n1 n2 n3, rangeExclN n1 n2 n3])

/-- The whole generated subtree when some argument is statically nullable:
the multi-way conditional over the null guards, with both range branches
widened to the common nullable result type. -/
def seqMultiIfTree (n1 n2 n3 : NodeExpr) : NodeExpr :=
  .fn "multiIf"
    (na [isNullN n1, .const (makeNullable (nodeType (rangeInclN n1 n2 n3))) .nullv,
         isNullN n2, .const (makeNullable (nodeType (rangeInclN n1 n2 n3))) .nullv,
         isNullN n3, .const (makeNullable (nodeType (rangeInclN n1 n2 n3))) .nullv,
         rawCond n1 n2 n3,
         .cast (makeNullable (nodeType (rangeInclN n1 n2 n3))) (rangeInclN n1 n2 n3),
         .cast (makeNullable (nodeType (rangeInclN n1 n2 n3))) (rangeExclN n1 n2 n3)])

mutual
/-- All subnodes of a tree (the node itself included), depth first. -/
def subNodes : NodeExpr → List NodeExpr
  | .input nm ty => [.input nm ty]
  | .const ty v => [.const ty v]
  | .cast ty n => .cast ty n :: subNodes n
  | .fn nm args => .fn nm args :: subNodesArgs args

/-- All subnodes of the trees of a child sequence. -/
def subNodesArgs : NodeArgs → List NodeExpr
  | .nil => []
  | .cons h t => subNodes h ++ subNodesArgs t
end

/-- Whether a node is an `isNull` application. -/
def isIsNullHead : NodeExpr → Bool
  | .fn "isNull" _ => true
  | _ => false

/-- Whether a node is a `multiIf` application. -/
def isMultiIfHead : NodeExpr → Bool
  | .fn "multiIf" _ => true
  | _ => false

/-- Whether a node is a null constant. -/
def isNullConstNode : NodeExpr → Bool
  | .const _ .nullv => true
  | _ => false

/-- Static result type of the node a `sequence` call parses to (before any
caller-requested output coercion; `CHType.int` for an arity error, which the
typing claims never hit). -/
def resTypeOf (args : List NodeExpr) : CHType :=
  match (FunctionParserSequence.parse args none []).2 with
  | .ok n => nodeType n
  | .error _ => .int

/-- Row with a null `start`, an integer `end` and the integer step `0`. -/
def envNullStartZeroStep : String → Value := fun nm =>
  if nm = "start" then .nullv else if nm = "end" then .intv 5 else .intv 0

/-- Row in which every column is null. -/
def envAllNull : String → Value := fun _ => .nullv

/-- Row with a null `start`, `end = 7` and `step = 2`. -/
def envNullStartStepTwo : String → Value := fun nm =>
  if nm = "start" then .nullv else if nm = "end" then .intv 7 else .intv 2

/-- Refinement of the three-argument path of the parser: the returned node
is the plain two-way conditional when no argument type is nullable, the
null-guarded multi-way conditional otherwise. -/
theorem parse_three_shape (n1 n2 n3 : NodeExpr) (dag : DagState) :
    (FunctionParserSequence.parse [n1, n2, n3] none dag).2 =
      .ok (if !(isNullable (nodeType n1)) && !(isNullable (nodeType n2))
              && !(isNullable (nodeType n3))
           then seqIfTree n1 n2 n3 else seqMultiIfTree n1 n2 n3) := by
  by_cases h : (!(isNullable (nodeType n1)) && !(isNullable (nodeType n2))
      && !(isNullable (nodeType n3))) = true
  · simp [FunctionParserSequence.parse, FunctionParserSequence.parseChecked,
      FunctionParserSequence.parseCheckedResult, coerceNodeIfNeeded, h,
      seqIfTree, rawCond, rangeInclN, rangeExclN, trickyStepN, aNN, isNullN,
      constInt, na]
  · simp [FunctionParserSequence.parse, FunctionParserSequence.parseChecked,
      FunctionParserSequence.parseCheckedResult, coerceNodeIfNeeded, h,
      seqMultiIfTree, rawCond, rangeInclN, rangeExclN, trickyStepN, aNN,
      isNullN, constInt, na]

/-- Refinement of the two-argument path of the parser: identical to the
three-argument path with the synthesized step `if(start <= end, 1, -1)`,
whose static type is never nullable. -/
theorem parse_two_shape (n1 n2 : NodeExpr) (dag : DagState) :
    (FunctionParserSequence.parse [n1, n2] none dag).2 =
      .ok (if !(isNullable (nodeType n1)) && !(isNullable (nodeType n2))
           then seqIfTree n1 n2 (defaultStep n1 n2)
           else seqMultiIfTree n1 n2 (defaultStep n1 n2)) := by
  have h2 : (FunctionParserSequence.parse [n1, n2] none dag).2 =
      (FunctionParserSequence.parse [n1, n2, defaultStep n1 n2] none dag).2 := rfl
  rw [h2, parse_three_shape]
  simp [show isNullable (nodeType (defaultStep n1 n2)) = false from rfl]

/-! ## Helper lemmas -/

theorem isNullable_makeNullable (t : CHType) :
    isNullable (makeNullable t) = true := by
  cases t <;> rfl

theorem isNullable_inpN (nm : String) (b : Bool) :
    isNullable (nodeType (inpN nm b)) = b := by
  cases b <;> rfl

/-! Evaluation equations for the node model and the engine primitives, in a
form the later proofs can rewrite with (the big string dispatch of `applyFn`
is never unfolded by `simp` directly). -/

@[simp] theorem evalNode_input (env : String → Value) (nm : String)
    (ty : CHType) : evalNode env (.input nm ty) = some (env nm) := rfl

@[simp] theorem evalNode_const (env : String → Value) (ty : CHType)
    (v : CVal) : evalNode env (.const ty v) = some v.toValue := rfl

@[simp] theorem evalNode_conv (env : String → Value) (ty : CHType)
    (n : NodeExpr) : evalNode env (.cast ty n) = evalNode env n := by
  rw [evalNode]

@[simp] theorem evalNode_fn (env : String → Value) (nm : String)
    (args : NodeArgs) :
    evalNode env (.fn nm args) = (evalArgs env args).bind (applyFn nm) := by
  rw [evalNode]

@[simp] theorem evalArgs_nil (env : String → Value) :
    evalArgs env .nil = some [] := rfl

@[simp] theorem evalArgs_cons (env : String → Value) (h : NodeExpr)
    (t : NodeArgs) :
    evalArgs env (.cons h t)
      = (evalNode env h).bind (fun v => (evalArgs env t).map (v :: ·)) := by
  rw [evalArgs]

@[simp] theorem cval_toValue_intv (i : Int) :
    CVal.toValue (.intv i) = .intv i := rfl

@[simp] theorem cval_toValue_nullv : CVal.toValue .nullv = .nullv := rfl

@[simp] theorem applyFn_isNull_intv (i : Int) :
    applyFn "isNull" [.intv i] = some (.intv 0) := rfl

@[simp] theorem applyFn_isNull_nullv :
    applyFn "isNull" [.nullv] = some (.intv 1) := rfl

@[simp] theorem applyFn_aNN_intv (i : Int) :
    applyFn "assumeNotNull" [.intv i] = some (.intv i) := rfl

@[simp] theorem applyFn_aNN_nullv :
    applyFn "assumeNotNull" [.nullv] = some (.intv 0) := rfl

@[simp] theorem applyFn_plus_intv (x y : Int) :
    applyFn "plus" [.intv x, .intv y] = some (.intv (x + y)) := rfl

@[simp] theorem applyFn_plus_nullL (v : Value) :
    applyFn "plus" [.nullv, v] = some .nullv := by cases v <;> rfl

@[simp] theorem applyFn_plus_nullR (v : Value) :
    applyFn "plus" [v, .nullv] = some .nullv := by cases v <;> rfl

@[simp] theorem applyFn_minus_intv (x y : Int) :
    applyFn "minus" [.intv x, .intv y] = some (.intv (x - y)) := rfl

@[simp] theorem applyFn_minus_nullL (v : Value) :
    applyFn "minus" [.nullv, v] = some .nullv := by cases v <;> rfl

@[simp] theorem applyFn_minus_nullR (v : Value) :
    applyFn "minus" [v, .nullv] = some .nullv := by cases v <;> rfl

@[simp] theorem applyFn_le_intv (x y : Int) :
    applyFn "lessOrEquals" [.intv x, .intv y]
      = some (.intv (if x ≤ y then 1 else 0)) := rfl

@[simp] theorem applyFn_eq_intv (x y : Int) :
    applyFn "equals" [.intv x, .intv y]
      = some (.intv (if x = y then 1 else 0)) := rfl

@[simp] theorem applyFn_eq_nullL (v : Value) :
    applyFn "equals" [.nullv, v] = some .nullv := by cases v <;> rfl

@[simp] theorem applyFn_eq_nullR (v : Value) :
    applyFn "equals" [v, .nullv] = some .nullv := by cases v <;> rfl

theorem applyFn_modulo_intv (x y : Int) :
    applyFn "modulo" [.intv x, .intv y]
      = (if y = 0 then none else some (Int.tmod x y)).map .intv := rfl

@[simp] theorem applyFn_modulo_intv_nz (x y : Int) (h : y ≠ 0) :
    applyFn "modulo" [.intv x, .intv y] = some (.intv (Int.tmod x y)) := by
  rw [applyFn_modulo_intv, if_neg h]
  rfl

@[simp] theorem applyFn_modulo_nullL (v : Value) :
    applyFn "modulo" [.nullv, v] = some .nullv := by cases v <;> rfl

@[simp] theorem applyFn_modulo_nullR (v : Value) :
    applyFn "modulo" [v, .nullv] = some .nullv := by cases v <;> rfl

@[simp] theorem applyFn_if_intv (i : Int) (a b : Value) :
    applyFn "if" [.intv i, a, b] = some (if i = 0 then b else a) := rfl

@[simp] theorem applyFn_if_nullv (a b : Value) :
    applyFn "if" [.nullv, a, b] = some b := rfl

theorem applyFn_range_intv (x y z : Int) :
    applyFn "range" [.intv x, .intv y, .intv z]
      = if z = 0 then none else some (.arrv (rangeList x y z)) := rfl

@[simp] theorem applyFn_range_intv_nz (x y z : Int) (h : z ≠ 0) :
    applyFn "range" [.intv x, .intv y, .intv z]
      = some (.arrv (rangeList x y z)) := by
  rw [applyFn_range_intv, if_neg h]

@[simp] theorem applyFn_range_zero (x y : Int) :
    applyFn "range" [.intv x, .intv y, .intv 0] = none := rfl

@[simp] theorem applyFn_multiIf (l : List Value) :
    applyFn "multiIf" l = multiIfSel l := rfl

@[simp] theorem multiIfSel_single (v : Value) : multiIfSel [v] = some v := by
  cases v <;> rfl

@[simp] theorem multiIfSel_intv (i : Int) (v : Value) (rest : List Value) :
    multiIfSel (.intv i :: v :: rest)
      = if i = 0 then multiIfSel rest else some v := rfl

@[simp] theorem multiIfSel_nullv (v : Value) (rest : List Value) :
    multiIfSel (.nullv :: v :: rest) = multiIfSel rest := rfl

/-- Characterization of membership in the fuelled ascending range, for a
positive step and adequate fuel. -/
theorem rangeUpF_mem {x a b c : Int} (hc : 0 < c) :
    ∀ f : Nat, (b - a).toNat ≤ f →
      (x ∈ rangeUpF f a b c ↔ a ≤ x ∧ x < b ∧ c ∣ (x - a)) := by
  intro f
  induction f generalizing a with
  | zero =>
    intro hf
    simp only [rangeUpF, List.not_mem_nil, false_iff]
    rintro ⟨h1, h2, -⟩
    omega
  | succ f ih =>
    intro hf
    by_cases hab : a < b
    · rw [show rangeUpF (f + 1) a b c
          = if a < b then a :: rangeUpF f (a + c) b c else [] from rfl,
        if_pos hab, List.mem_cons, @ih (a + c) (by omega)]
      constructor
      · rintro (rfl | ⟨h1, h2, h3⟩)
        · exact ⟨le_refl x, hab, by simp⟩
        · refine ⟨by omega, h2, ?_⟩
          have he : x - a = x - (a + c) + c := by ring
          rw [he]
          exact dvd_add h3 dvd_rfl
      · rintro ⟨h1, h2, h3⟩
        rcases eq_or_lt_of_le h1 with heq | hlt
        · exact Or.inl heq.symm
        · refine Or.inr ⟨?_, h2, ?_⟩
          · have := Int.le_of_dvd (by omega) h3
            omega
          · have he : x - (a + c) = x - a - c := by ring
            rw [he]
            exact dvd_sub h3 dvd_rfl
    · rw [show rangeUpF (f + 1) a b c
          = if a < b then a :: rangeUpF f (a + c) b c else [] from rfl,
        if_neg hab]
      simp only [List.not_mem_nil, false_iff]
      rintro ⟨h1, h2, -⟩
      omega

/-- Characterization of membership in the fuelled descending range, for a
negative step and adequate fuel. -/
theorem rangeDownF_mem {x a b c : Int} (hc : c < 0) :
    ∀ f : Nat, (a - b).toNat ≤ f →
      (x ∈ rangeDownF f a b c ↔ b < x ∧ x ≤ a ∧ c ∣ (x - a)) := by
  intro f
  induction f generalizing a with
  | zero =>
    intro hf
    simp only [rangeDownF, List.not_mem_nil, false_iff]
    rintro ⟨h1, h2, -⟩
    omega
  | succ f ih =>
    intro hf
    by_cases hab : b < a
    · rw [show rangeDownF (f + 1) a b c
          = if b < a then a :: rangeDownF f (a + c) b c else [] from rfl,
        if_pos hab, List.mem_cons, @ih (a + c) (by omega)]
      constructor
      · rintro (rfl | ⟨h1, h2, h3⟩)
        · exact ⟨hab, le_refl x, by simp⟩
        · refine ⟨h1, by omega, ?_⟩
          have he : x - a = x - (a + c) + c := by ring
          rw [he]
          exact dvd_add h3 dvd_rfl
      · rintro ⟨h1, h2, h3⟩
        rcases eq_or_lt_of_le h2 with heq | hlt
        · exact Or.inl heq
        · refine Or.inr ⟨h1, ?_, ?_⟩
          · have hd : c ∣ a - x := by
              have h4 : c ∣ -(x - a) := (dvd_neg).mpr h3
              rwa [neg_sub] at h4
            have h5 : -c ≤ a - x := Int.le_of_dvd (by omega) ((neg_dvd).mpr hd)
            omega
          · have he : x - (a + c) = x - a - c := by ring
            rw [he]
            exact dvd_sub h3 dvd_rfl
    · rw [show rangeDownF (f + 1) a b c
          = if b < a then a :: rangeDownF f (a + c) b c else [] from rfl,
        if_neg hab]
      simp only [List.not_mem_nil, false_iff]
      rintro ⟨h1, h2, -⟩
      omega

/-- Characterization of membership in the half-open range primitive, for a
nonzero step. -/
theorem rangeList_mem {x a b c : Int} (hc : c ≠ 0) :
    x ∈ rangeList a b c ↔
      c ∣ (x - a) ∧ ((0 < c ∧ a ≤ x ∧ x < b) ∨ (c < 0 ∧ b < x ∧ x ≤ a)) := by
  rcases lt_or_gt_of_ne hc with hneg | hpos
  · have h1 : ¬ (0 < c) := by omega
    rw [rangeList, if_neg h1, if_pos hneg, rangeDownF_mem hneg _ le_rfl]
    constructor
    · rintro ⟨hb, ha, hd⟩
      exact ⟨hd, Or.inr ⟨hneg, hb, ha⟩⟩
    · rintro ⟨hd, ⟨hc2, -, -⟩ | ⟨-, hb, ha⟩⟩
      · omega
      · exact ⟨hb, ha, hd⟩
  · rw [rangeList, if_pos hpos, rangeUpF_mem hpos _ le_rfl]
    constructor
    · rintro ⟨ha, hb, hd⟩
      exact ⟨hd, Or.inl ⟨hpos, ha, hb⟩⟩
    · rintro ⟨hd, ⟨-, ha, hb⟩ | ⟨hc2, -, -⟩⟩
      · exact ⟨ha, hb, hd⟩
      · omega

/-- The upper bound `e` belongs to the compiled sequence list exactly when
the remainder `(e - s) tmod st` vanishes, provided the step points from `s`
towards `e`. -/
theorem seqList_mem_end {s e st : Int}
    (hdir : (s ≤ e ∧ 0 < st) ∨ (e ≤ s ∧ st < 0)) :
    e ∈ seqList s e st ↔ Int.tmod (e - s) st = 0 := by
  have hst : st ≠ 0 := by rcases hdir with ⟨-, h⟩ | ⟨-, h⟩ <;> omega
  by_cases hm : Int.tmod (e - s) st = 0
  · have hdvd : st ∣ (e - s) := Int.dvd_of_tmod_eq_zero hm
    rw [seqList, if_pos hm]
    simp only [hm, iff_true]
    rw [rangeList_mem hst]
    refine ⟨hdvd, ?_⟩
    rcases hdir with ⟨h1, h2⟩ | ⟨h1, h2⟩
    · exact Or.inl ⟨h2, h1, by omega⟩
    · exact Or.inr ⟨h2, by omega, h1⟩
  · rw [seqList, if_neg hm]
    simp only [hm, iff_false]
    rw [rangeList_mem hst]
    rintro ⟨hdvd, -⟩
    exact hm (Int.tmod_eq_zero_of_dvd hdvd)

/-- Evaluation of the non-nullable-shaped subtree on constant start and end
arguments and any step node that evaluates to a nonzero integer. -/
theorem evalNode_seqIfTree (s e st : Int) (sn : NodeExpr)
    (hsn : evalNode env0 sn = some (.intv st)) (hst : st ≠ 0) :
    evalNode env0 (seqIfTree (constInt s) (constInt e) sn)
      = some (.arrv (seqList s e st)) := by
  by_cases hm : Int.tmod (e - s) st = 0 <;>
    simp [seqIfTree, rawCond, rangeInclN, rangeExclN, trickyStepN, aNN,
      isNullN, constInt, na, hsn, hst, hm, seqList]

/-- Evaluation of the null-guarded subtree on a row where one of the three
inputs is null, the others are integers, and a non-null step is nonzero:
the result is null. -/
theorem evalNode_seqMultiIfTree_nullrow (t1 t2 t3 : CHType)
    (env : String → Value) (vs ve vst : Value)
    (hs : env "start" = vs) (he : env "end" = ve) (hsp : env "step" = vst)
    (hvs : vs = .nullv ∨ ∃ i, vs = .intv i)
    (hve : ve = .nullv ∨ ∃ i, ve = .intv i)
    (hvst : vst = .nullv ∨ ∃ k, vst = .intv k ∧ k ≠ 0)
    (hnull : vs = .nullv ∨ ve = .nullv ∨ vst = .nullv) :
    evalNode env (seqMultiIfTree (.input "start" t1) (.input "end" t2)
      (.input "step" t3)) = some .nullv := by
  rcases hvs with rfl | ⟨i, rfl⟩ <;> rcases hve with rfl | ⟨j, rfl⟩ <;>
    rcases hvst with rfl | ⟨k, rfl, hk⟩ <;>
    simp_all [seqMultiIfTree, rawCond, rangeInclN, rangeExclN, trickyStepN,
      aNN, isNullN, constInt, na]

/-- The synthesized default step evaluates to `1` or `-1` according to the
runtime comparison of constant start and end. -/
theorem evalNode_defaultStep (a b : Int) :
    evalNode env0 (defaultStep (constInt a) (constInt b))
      = some (.intv (if a ≤ b then 1 else -1)) := by
  by_cases hab : a ≤ b <;> simp [defaultStep, constInt, na, hab]

/-- Every node is a subnode of itself. -/
theorem mem_subNodes_self (n : NodeExpr) : n ∈ subNodes n := by
  cases n <;> simp [subNodes]

/-- Unfolding of the subnode list of the plain two-way conditional tree. -/
theorem subNodes_seqIfTree (n1 n2 n3 : NodeExpr) :
    subNodes (seqIfTree n1 n2 n3)
      = seqIfTree n1 n2 n3
        :: (subNodes (rawCond n1 n2 n3)
          ++ (subNodes (rangeInclN n1 n2 n3)
            ++ (subNodes (rangeExclN n1 n2 n3) ++ []))) := rfl

/-- Unfolding of the subnode list of the null-guarded multi-way
conditional tree. -/
theorem subNodes_seqMultiIfTree (n1 n2 n3 : NodeExpr) :
    subNodes (seqMultiIfTree n1 n2 n3)
      = seqMultiIfTree n1 n2 n3
        :: (subNodes (isNullN n1)
          ++ (subNodes (NodeExpr.const (makeNullable (nodeType
                (rangeInclN n1 n2 n3))) .nullv)
          ++ (subNodes (isNullN n2)
          ++ (subNodes (NodeExpr.const (makeNullable (nodeType
                (rangeInclN n1 n2 n3))) .nullv)
          ++ (subNodes (isNullN n3)
          ++ (subNodes (NodeExpr.const (makeNullable (nodeType
                (rangeInclN n1 n2 n3))) .nullv)
          ++ (subNodes (rawCond n1 n2 n3)
          ++ ((NodeExpr.cast (makeNullable (nodeType (rangeInclN n1 n2 n3)))
                (rangeInclN n1 n2 n3)
              :: subNodes (rangeInclN n1 n2 n3))
          ++ (((NodeExpr.cast (makeNullable (nodeType (rangeInclN n1 n2 n3)))
                (rangeExclN n1 n2 n3)
              :: subNodes (rangeExclN n1 n2 n3))
          ++ [])))))))))) := rfl

/-- The result of a well-arity `sequence` call, as `seqNode` sees it. -/
theorem seqNode_three_shape (n1 n2 n3 : NodeExpr) :
    seqNode [n1, n2, n3]
      = .ok (if !(isNullable (nodeType n1)) && !(isNullable (nodeType n2))
                && !(isNullable (nodeType n3))
             then seqIfTree n1 n2 n3 else seqMultiIfTree n1 n2 n3) :=
  parse_three_shape n1 n2 n3 []

/-- Both range nodes and the raw condition occur in whichever tree the
parser returns for a three-argument call. -/
theorem seqNode_three_occurrences (n1 n2 n3 : NodeExpr) :
    ∃ t, seqNode [n1, n2, n3] = .ok t
      ∧ rawCond n1 n2 n3 ∈ subNodes t
      ∧ rangeInclN n1 n2 n3 ∈ subNodes t
      ∧ rangeExclN n1 n2 n3 ∈ subNodes t
      ∧ (t = seqIfTree n1 n2 n3 ∨ t = seqMultiIfTree n1 n2 n3) := by
  by_cases h : (!(isNullable (nodeType n1)) && !(isNullable (nodeType n2))
      && !(isNullable (nodeType n3))) = true
  · refine ⟨seqIfTree n1 n2 n3, ?_, ?_, ?_, ?_, Or.inl rfl⟩
    · rw [seqNode_three_shape, h, if_pos rfl]
    · rw [subNodes_seqIfTree]
      simp [mem_subNodes_self]
    · rw [subNodes_seqIfTree]
      simp [mem_subNodes_self]
    · rw [subNodes_seqIfTree]
      simp [mem_subNodes_self]
  · refine ⟨seqMultiIfTree n1 n2 n3, ?_, ?_, ?_, ?_, Or.inr rfl⟩
    · rw [seqNode_three_shape]
      rw [Bool.not_eq_true] at h
      rw [h]
      simp
    · rw [subNodes_seqMultiIfTree]
      simp [mem_subNodes_self]
    · rw [subNodes_seqMultiIfTree]
      simp [mem_subNodes_self]
    · rw [subNodes_seqMultiIfTree]
      simp [mem_subNodes_self]

/-- Row value of a three-argument call on constant integer arguments with a
nonzero step. -/
theorem seqEval_const3 (s e st : Int) (hst : st ≠ 0) :
    seqEvalEnv [constInt s, constInt e, constInt st] env0
      = some (.arrv (seqList s e st)) := by
  unfold seqEvalEnv
  rw [parse_three_shape]
  have hc : (!(isNullable (nodeType (constInt s))) &&
      !(isNullable (nodeType (constInt e))) &&
      !(isNullable (nodeType (constInt st)))) = true := rfl
  rw [hc, if_pos rfl]
  exact evalNode_seqIfTree s e st (constInt st) rfl hst

/-- The synthesized default step is nonzero. -/
theorem defaultStep_ne_zero (a b : Int) :
    (if a ≤ b then (1 : Int) else -1) ≠ 0 := by
  by_cases hab : a ≤ b <;> simp [hab]

/-- Row value of a two-argument call on constant integer arguments. -/
theorem seqEval_const2 (a b : Int) :
    seqEvalEnv [constInt a, constInt b] env0
      = some (.arrv (seqList a b (if a ≤ b then 1 else -1))) := by
  unfold seqEvalEnv
  rw [parse_two_shape]
  have hc : (!(isNullable (nodeType (constInt a))) &&
      !(isNullable (nodeType (constInt b)))) = true := rfl
  rw [hc, if_pos rfl]
  exact evalNode_seqIfTree a b (if a ≤ b then 1 else -1)
    (defaultStep (constInt a) (constInt b)) (evalNode_defaultStep a b)
    (defaultStep_ne_zero a b)

/-- With the synthesized default step the remainder is always zero and the
end value always belongs to the generated sequence. -/
theorem seqList_mem_end_default (a b : Int) :
    b ∈ seqList a b (if a ≤ b then 1 else -1)
    ∧ Int.tmod (b - a) (if a ≤ b then 1 else -1) = 0 := by
  have hd : (if a ≤ b then (1 : Int) else -1) ∣ (b - a) := by
    by_cases hab : a ≤ b <;> simp [hab]
  have hm : Int.tmod (b - a) (if a ≤ b then 1 else -1) = 0 :=
    Int.tmod_eq_zero_of_dvd hd
  have hdir : (a ≤ b ∧ 0 < (if a ≤ b then (1 : Int) else -1))
      ∨ (b ≤ a ∧ (if a ≤ b then (1 : Int) else -1) < 0) := by
    by_cases hab : a ≤ b
    · exact Or.inl ⟨hab, by simp [hab]⟩
    · exact Or.inr ⟨by omega, by simp [hab]⟩
  exact ⟨(seqList_mem_end hdir).mpr hm, hm⟩

/-! ## Claims -/

/-- C3: the static result type of the node returned by
`FunctionParserSequence::parse` (before caller-requested output coercion)
is nullable if and only if at least one of start, end, or step
(post-default) has a statically nullable type: with a declared step the
result type is nullable iff any of the three argument types is nullable,
and with the synthesized default step (whose static type is never
nullable) iff start's or end's type is.  `resTypeOf` is a function of the
arguments' declared types alone, so the decision never involves runtime
values. -/
theorem sequence_result_nullability :
    (∀ a b c : Bool,
      isNullable (resTypeOf [inpN "start" a, inpN "end" b, inpN "step" c])
        = (a || b || c))
    ∧ ∀ a b : Bool,
      isNullable (resTypeOf [inpN "start" a, inpN "end" b]) = (a || b) := by
  constructor
  · intro a b c
    cases a <;> cases b <;> cases c <;> rfl
  · intro a b
    cases a <;> cases b <;> rfl

/-- C4: a two-argument `sequence(start, end)` call parses exactly like the
three-argument form with the step argument replaced by the data-flow
subtree `if(lessOrEquals(start, end), 1, -1)` — a comparison node feeding a
two-way conditional over the constants 1 and -1, present as nodes in the
result rather than evaluated at parse time — and `sequence(5, 1)` therefore
evaluates to `[5, 4, 3, 2, 1]`. -/
theorem sequence_default_step_subtree :
    (∀ (n1 n2 : NodeExpr) (dag : DagState),
      (FunctionParserSequence.parse [n1, n2] none dag).2 =
        .ok (if !(isNullable (nodeType n1)) && !(isNullable (nodeType n2))
             then seqIfTree n1 n2 (defaultStep n1 n2)
             else seqMultiIfTree n1 n2 (defaultStep n1 n2)))
    ∧ (∀ n1 n2 : NodeExpr, defaultStep n1 n2
        = .fn "if" (na [.fn "lessOrEquals" (na [n1, n2]), constInt 1,
            constInt (-1)]))
    ∧ seqEvalEnv [constInt 5, constInt 1] env0
        = some (.arrv [5, 4, 3, 2, 1]) := by
  exact ⟨parse_two_shape, fun n1 n2 => rfl, by decide⟩

/-- C5: a call with an argument count other than 2 or 3 fails with the
arity-mismatch error naming the `sequence` function, and the builder state
is returned unchanged — no nodes have been added. -/
theorem sequence_arity_mismatch (args : List NodeExpr)
    (outputType : Option CHType) (dag : DagState)
    (h2 : args.length ≠ 2) (h3 : args.length ≠ 3) :
    FunctionParserSequence.parse args outputType dag
      = (dag, .error (.arityMismatch FunctionParserSequence.name)) := by
  rcases args with _ | ⟨a, _ | ⟨b, _ | ⟨c, _ | ⟨d, rest⟩⟩⟩⟩
  · rfl
  · rfl
  · exact absurd rfl h2
  · exact absurd rfl h3
  · rfl

/-- Witness for C5: the one-argument call fails with the arity error and
leaves the (empty) builder untouched. -/
theorem sequence_arity_mismatch_witness :
    ([constInt 1] : List NodeExpr).length ≠ 2
    ∧ ([constInt 1] : List NodeExpr).length ≠ 3
    ∧ FunctionParserSequence.parse [constInt 1] none []
        = ([], .error (.arityMismatch FunctionParserSequence.name)) :=
  ⟨by decide, by decide,
   sequence_arity_mismatch [constInt 1] none [] (by decide) (by decide)⟩

/-- C9: `FunctionParserSequence::parse` is deterministic — it is a pure
function of the serialized call's argument nodes, the requested output type
and the builder state, so two runs on equal inputs return equal builder
states and equal results (including equal errors). -/
theorem sequence_parse_deterministic
    (args1 args2 : List NodeExpr) (out1 out2 : Option CHType)
    (dag1 dag2 : DagState)
    (ha : args1 = args2) (ho : out1 = out2) (hd : dag1 = dag2) :
    FunctionParserSequence.parse args1 out1 dag1
      = FunctionParserSequence.parse args2 out2 dag2 := by
  subst ha
  subst ho
  subst hd
  rfl

/-- Witness for C9: two runs on one concrete call coincide. -/
theorem sequence_parse_deterministic_witness :
    ([constInt 1, constInt 2] : List NodeExpr) = [constInt 1, constInt 2]
    ∧ FunctionParserSequence.parse [constInt 1, constInt 2] none []
        = FunctionParserSequence.parse [constInt 1, constInt 2] none [] :=
  ⟨rfl, sequence_parse_deterministic [constInt 1, constInt 2]
    [constInt 1, constInt 2] none none [] [] rfl rfl rfl⟩

/-- C10: `getRightSampleBlock` returns the stored metadata's sample block
with every column converted to nullable exactly when `use_nulls` is set and
the join kind is LEFT or FULL, and the columns unmodified otherwise; as a
consequence a result column's type is nullable iff the conversion applied
or the stored column was already nullable.  (The method is `const` and
operates on a by-value copy, which the embedding reflects by being a pure
function of the storage value.) -/
theorem getRightSampleBlock_spec (s : StorageJoinFromReadBuffer) :
    getRightSampleBlock s
      = s.storage_metadata.sampleBlock.map
          (fun c => if s.use_nulls && isLeftOrFull s.kind
                    then convertColumnToNullable c else c)
    ∧ ∀ i : Nat,
        ((getRightSampleBlock s)[i]?).map (fun c => isNullable c.ty)
          = (s.storage_metadata.sampleBlock[i]?).map
              (fun c => (s.use_nulls && isLeftOrFull s.kind)
                  || isNullable c.ty) := by
  by_cases h : (s.use_nulls && isLeftOrFull s.kind) = true
  · constructor
    · simp [getRightSampleBlock, h]
    · intro i
      simp only [getRightSampleBlock, h, if_true, Bool.true_or,
        List.getElem?_map]
      cases s.storage_metadata.sampleBlock[i]? <;>
        simp [convertColumnToNullable, isNullable_makeNullable]
  · rw [Bool.not_eq_true] at h
    constructor
    · simp [getRightSampleBlock, h]
    · intro i
      simp [getRightSampleBlock, h]

/-- C1 counterexample: for `sequence(1, 10, -3)` — non-null integer
arguments — the remainder `(10 - 1) tmod (-3)` is zero, yet the node
evaluates to the empty progression, which does not include the end value
10; so it is not the case that the result includes `end` exactly when
`(end - start) mod step == 0` for every non-null integer call. -/
theorem sequence_end_inclusion_counterexample :
    Int.tmod ((10 : Int) - 1) (-3) = 0
    ∧ seqEvalEnv [constInt 1, constInt 10, constInt (-3)] env0
        = some (.arrv ([] : List Int))
    ∧ (10 : Int) ∉ ([] : List Int) := by
  exact ⟨by decide, by decide, by decide⟩

/-- C1 (amended): for every call `sequence(start, end, step)` with non-null
integer arguments whose explicit step is nonzero and points from `start`
towards `end`, and for every call `sequence(start, end)`, the parsed node
computes the integer progression `seqList` — inclusive of `end` exactly
when `(end - start) tmod step = 0` and exclusive otherwise (with the
synthesized two-argument step the remainder is always zero); in particular
`sequence(1, 10, 3)` yields `[1, 4, 7, 10]` and `sequence(1, 9, 3)` yields
`[1, 4, 7]`. -/
theorem sequence_progression_amended (s e st : Int)
    (hdir : (s ≤ e ∧ 0 < st) ∨ (e ≤ s ∧ st < 0)) :
    seqEvalEnv [constInt s, constInt e, constInt st] env0
        = some (.arrv (seqList s e st))
    ∧ (e ∈ seqList s e st ↔ Int.tmod (e - s) st = 0)
    ∧ (∀ a b : Int,
        seqEvalEnv [constInt a, constInt b] env0
          = some (.arrv (seqList a b (if a ≤ b then 1 else -1)))
        ∧ (b ∈ seqList a b (if a ≤ b then 1 else -1)
            ↔ Int.tmod (b - a) (if a ≤ b then 1 else -1) = 0))
    ∧ seqList 1 10 3 = [1, 4, 7, 10]
    ∧ seqList 1 9 3 = [1, 4, 7] := by
  have hst : st ≠ 0 := by rcases hdir with ⟨-, h⟩ | ⟨-, h⟩ <;> omega
  refine ⟨seqEval_const3 s e st hst, seqList_mem_end hdir, ?_, by decide,
    by decide⟩
  intro a b
  have h := seqList_mem_end_default a b
  exact ⟨seqEval_const2 a b, ⟨fun _ => h.2, fun _ => h.1⟩⟩

/-- Witness for C1 (amended), at `sequence(1, 10, 3)`. -/
theorem sequence_progression_amended_witness :
    (((1 : Int) ≤ 10 ∧ (0 : Int) < 3) ∨ ((10 : Int) ≤ 1 ∧ (3 : Int) < 0))
    ∧ (seqEvalEnv [constInt 1, constInt 10, constInt 3] env0
          = some (.arrv (seqList 1 10 3))
      ∧ ((10 : Int) ∈ seqList 1 10 3 ↔ Int.tmod (10 - 1) 3 = 0)
      ∧ (∀ a b : Int,
          seqEvalEnv [constInt a, constInt b] env0
            = some (.arrv (seqList a b (if a ≤ b then 1 else -1)))
          ∧ (b ∈ seqList a b (if a ≤ b then 1 else -1)
              ↔ Int.tmod (b - a) (if a ≤ b then 1 else -1) = 0))
      ∧ seqList 1 10 3 = [1, 4, 7, 10]
      ∧ seqList 1 9 3 = [1, 4, 7]) :=
  ⟨by decide, sequence_progression_amended 1 10 3 (by decide)⟩

/-- C2 counterexample: with all three argument types nullable, the row
`start = null, end = 5, step = 0` does not produce a null result — the
eagerly evaluated range branches reject the zero step (the failure the
source's "tricky step" comment documents for the null-step case), so the
evaluation errors instead; a null `start` therefore does not yield null
"regardless of the other arguments' values". -/
theorem sequence_null_row_counterexample :
    envNullStartZeroStep "start" = Value.nullv
    ∧ seqEvalEnv [inpN "start" true, inpN "end" true, inpN "step" true]
        envNullStartZeroStep = none
    ∧ (none : Option Value) ≠ some Value.nullv := by
  exact ⟨rfl, by decide, by decide⟩

/-- C2 (amended): whenever at least one of start, end, step (post-default)
has a statically nullable type, the parsed node is the multi-way
conditional `multiIf(isNull(start), null, isNull(end), null, isNull(step),
null, inclusive, rangeIncl, rangeExcl)` in this fixed order, and every row
in which one of start, end, step is null — and in which a non-null step
value is nonzero — produces a null result regardless of the other
arguments' values. -/
theorem sequence_null_row_amended (a b c : Bool) (h : (a || b || c) = true)
    (env : String → Value) (vs ve vst : Value)
    (hs : env "start" = vs) (he : env "end" = ve) (hsp : env "step" = vst)
    (hvs : vs = .nullv ∨ ∃ i, vs = .intv i)
    (hve : ve = .nullv ∨ ∃ i, ve = .intv i)
    (hvst : vst = .nullv ∨ ∃ k, vst = .intv k ∧ k ≠ 0)
    (hnull : vs = .nullv ∨ ve = .nullv ∨ vst = .nullv) :
    seqNode [inpN "start" a, inpN "end" b, inpN "step" c]
        = .ok (seqMultiIfTree (inpN "start" a) (inpN "end" b)
            (inpN "step" c))
    ∧ seqEvalEnv [inpN "start" a, inpN "end" b, inpN "step" c] env
        = some .nullv := by
  have hcond : (!(isNullable (nodeType (inpN "start" a))) &&
      !(isNullable (nodeType (inpN "end" b))) &&
      !(isNullable (nodeType (inpN "step" c)))) = false := by
    rw [isNullable_inpN, isNullable_inpN, isNullable_inpN]
    cases a <;> cases b <;> cases c <;> simp_all
  constructor
  · rw [seqNode, parse_three_shape, hcond]
    simp
  · unfold seqEvalEnv
    rw [parse_three_shape, hcond]
    simp only [Bool.false_eq_true, if_false]
    exact evalNode_seqMultiIfTree_nullrow _ _ _ env vs ve vst hs he hsp
      hvs hve hvst hnull

/-- Witness for C2 (amended): all three types nullable, row
`start = null, end = 7, step = 2`. -/
theorem sequence_null_row_amended_witness :
    ((true || true || true) = true)
    ∧ envNullStartStepTwo "start" = Value.nullv
    ∧ envNullStartStepTwo "end" = Value.intv 7
    ∧ envNullStartStepTwo "step" = Value.intv 2
    ∧ (seqNode [inpN "start" true, inpN "end" true, inpN "step" true]
          = .ok (seqMultiIfTree (inpN "start" true) (inpN "end" true)
              (inpN "step" true))
      ∧ seqEvalEnv [inpN "start" true, inpN "end" true, inpN "step" true]
          envNullStartStepTwo = some .nullv) :=
  ⟨rfl, rfl, rfl, rfl,
   sequence_null_row_amended true true true rfl envNullStartStepTwo
     Value.nullv (Value.intv 7) (Value.intv 2) rfl rfl rfl
     (Or.inl rfl) (Or.inr ⟨7, rfl⟩) (Or.inr ⟨2, rfl, by decide⟩)
     (Or.inl rfl)⟩

/-- C6 counterexample: with three non-nullable arguments the parser's
inclusive range node is `range(start', end' + step', stepForRange)` — the
upper bound adds the plain `assumeNotNull(step)`, not the
placeholder-protected `stepForRange` — so the subtree
`range(start', end' + stepForRange, stepForRange)` claimed by C6 occurs
nowhere in the generated result. -/
theorem sequence_range_shape_counterexample :
    seqNode [inpN "start" false, inpN "end" false, inpN "step" false]
      = .ok (seqIfTree (inpN "start" false) (inpN "end" false)
          (inpN "step" false))
    ∧ rangeInclClaimN (inpN "start" false) (inpN "end" false)
        (inpN "step" false)
        ∉ subNodes (seqIfTree (inpN "start" false) (inpN "end" false)
            (inpN "step" false))
    ∧ rangeInclN (inpN "start" false) (inpN "end" false) (inpN "step" false)
        ∈ subNodes (seqIfTree (inpN "start" false) (inpN "end" false)
            (inpN "step" false)) := by
  exact ⟨rfl, by decide, by decide⟩

/-- C6 (amended): the generated subtree contains the inclusive range node
`range(start', end' + step', stepForRange)` and the exclusive range node
`range(start', end', stepForRange)`, where `stepForRange =
if(isNull(step), 1, step')`; and the placeholder value 1 substituted when
step is null never affects the final output, because a null step is caught
by the null guard of the final conditional — any row with a null step (the
step argument being statically nullable) produces a null result. -/
theorem sequence_range_shape_amended (n1 n2 n3 : NodeExpr) :
    (∃ t, seqNode [n1, n2, n3] = .ok t
        ∧ rangeInclN n1 n2 n3 ∈ subNodes t
        ∧ rangeExclN n1 n2 n3 ∈ subNodes t)
    ∧ (∀ (a b : Bool) (env : String → Value),
        env "step" = .nullv →
        (env "start" = .nullv ∨ ∃ i, env "start" = .intv i) →
        (env "end" = .nullv ∨ ∃ i, env "end" = .intv i) →
        seqEvalEnv [inpN "start" a, inpN "end" b, inpN "step" true] env
          = some .nullv) := by
  constructor
  · rcases seqNode_three_occurrences n1 n2 n3 with ⟨t, ht, -, hi, he, -⟩
    exact ⟨t, ht, hi, he⟩
  · intro a b env hstep hvs hve
    have hcond : (!(isNullable (nodeType (inpN "start" a))) &&
        !(isNullable (nodeType (inpN "end" b))) &&
        !(isNullable (nodeType (inpN "step" true)))) = false := by
      rw [isNullable_inpN, isNullable_inpN, isNullable_inpN]
      cases a <;> cases b <;> rfl
    unfold seqEvalEnv
    rw [parse_three_shape, hcond]
    simp only [Bool.false_eq_true, if_false]
    exact evalNode_seqMultiIfTree_nullrow _ _ _ env (env "start")
      (env "end") .nullv rfl rfl hstep hvs hve (Or.inl rfl)
      (Or.inr (Or.inr rfl))

/-- Witness for C6 (amended): the structural part at `sequence(0, 5, 2)`
and the null-step row with every column null. -/
theorem sequence_range_shape_amended_witness :
    (∃ t, seqNode [constInt 0, constInt 5, constInt 2] = .ok t
        ∧ rangeInclN (constInt 0) (constInt 5) (constInt 2) ∈ subNodes t
        ∧ rangeExclN (constInt 0) (constInt 5) (constInt 2) ∈ subNodes t)
    ∧ envAllNull "step" = Value.nullv
    ∧ seqEvalEnv [inpN "start" true, inpN "end" true, inpN "step" true]
        envAllNull = some .nullv :=
  ⟨(sequence_range_shape_amended (constInt 0) (constInt 5) (constInt 2)).1,
   rfl,
   (sequence_range_shape_amended (constInt 0) (constInt 5) (constInt 2)).2
     true true envAllNull rfl (Or.inl rfl) (Or.inl rfl)⟩

/-- C7 counterexample: with three nullable arguments, the condition subtree
built from the non-nullable-asserted projections —
`equals(modulo(minus(assumeNotNull(end), assumeNotNull(start)),
assumeNotNull(step)), 0)` — occurs nowhere in the generated result; the
condition the parser builds uses the raw argument nodes instead. -/
theorem sequence_condition_counterexample :
    seqNode [inpN "start" true, inpN "end" true, inpN "step" true]
      = .ok (seqMultiIfTree (inpN "start" true) (inpN "end" true)
          (inpN "step" true))
    ∧ projCond (inpN "start" true) (inpN "end" true) (inpN "step" true)
        ∉ subNodes (seqMultiIfTree (inpN "start" true) (inpN "end" true)
            (inpN "step" true))
    ∧ rawCond (inpN "start" true) (inpN "end" true) (inpN "step" true)
        ∈ subNodes (seqMultiIfTree (inpN "start" true) (inpN "end" true)
            (inpN "step" true)) := by
  exact ⟨rfl, by decide, by decide⟩

/-- C7 (amended): the inclusive-vs-exclusive selection condition is
computed from the raw argument nodes — `remainder = (end - start) mod step`
and `inclusive = (remainder == 0)` over the original (possibly nullable)
inputs — and the result is the two-way conditional over it when no
argument is nullable, the null-guarded multi-way conditional otherwise
(the `assumeNotNull` projections feed only the range nodes, as the
definitions of `seqIfTree` and `seqMultiIfTree` exhibit). -/
theorem sequence_condition_amended (n1 n2 n3 : NodeExpr) :
    ∃ t, seqNode [n1, n2, n3] = .ok t
      ∧ rawCond n1 n2 n3 ∈ subNodes t
      ∧ (t = seqIfTree n1 n2 n3 ∨ t = seqMultiIfTree n1 n2 n3) := by
  rcases seqNode_three_occurrences n1 n2 n3 with ⟨t, ht, hc, -, -, hshape⟩
  exact ⟨t, ht, hc, hshape⟩

/-- C8 counterexample: even when none of the three arguments is statically
nullable, the generated subtree rooted at the returned node contains an
`isNull` node — the `isNull(step)` feeding the step-placeholder conditional
`if(isNull(step), 1, step')` inside both range nodes — so the claim that it
contains no `isNull` nodes is false. -/
theorem sequence_null_guard_counterexample :
    seqNode [inpN "start" false, inpN "end" false, inpN "step" false]
      = .ok (seqIfTree (inpN "start" false) (inpN "end" false)
          (inpN "step" false))
    ∧ isNullN (inpN "step" false)
        ∈ subNodes (seqIfTree (inpN "start" false) (inpN "end" false)
            (inpN "step" false))
    ∧ isIsNullHead (isNullN (inpN "step" false)) = true := by
  exact ⟨rfl, by decide, rfl⟩

/-- C8 (amended): when none of start, end, step (post-default) has a
statically nullable type, the result is the two-way conditional
`if(inclusive, rangeIncl, rangeExcl)`, and the generated subtree contains
no `multiIf` node, no null-constant node, and no `isNull` node other than
the single `isNull(step)` feeding the step-placeholder conditional. -/
theorem sequence_null_guard_amended (t1 t2 t3 : CHType)
    (h1 : isNullable t1 = false) (h2 : isNullable t2 = false)
    (h3 : isNullable t3 = false) :
    seqNode [.input "start" t1, .input "end" t2, .input "step" t3]
      = .ok (seqIfTree (.input "start" t1) (.input "end" t2)
          (.input "step" t3))
    ∧ ∀ n ∈ subNodes (seqIfTree (.input "start" t1) (.input "end" t2)
        (.input "step" t3)),
        (isIsNullHead n = true → n = isNullN (.input "step" t3))
        ∧ isMultiIfHead n = false ∧ isNullConstNode n = false := by
  constructor
  · rw [seqNode_three_shape]
    have hcond : (!(isNullable (nodeType (NodeExpr.input "start" t1))) &&
        !(isNullable (nodeType (NodeExpr.input "end" t2))) &&
        !(isNullable (nodeType (NodeExpr.input "step" t3)))) = true := by
      rw [show nodeType (NodeExpr.input "start" t1) = t1 from rfl,
        show nodeType (NodeExpr.input "end" t2) = t2 from rfl,
        show nodeType (NodeExpr.input "step" t3) = t3 from rfl, h1, h2, h3]
      rfl
    rw [hcond, if_pos rfl]
  · intro n hn
    fin_cases hn <;>
      simp [isIsNullHead, isMultiIfHead, isNullConstNode, isNullN, na]

/-- Witness for C8 (amended), at three plain integer argument types. -/
theorem sequence_null_guard_amended_witness :
    isNullable CHType.int = false
    ∧ (seqNode [.input "start" CHType.int, .input "end" CHType.int,
          .input "step" CHType.int]
        = .ok (seqIfTree (.input "start" CHType.int)
            (.input "end" CHType.int) (.input "step" CHType.int))
      ∧ ∀ n ∈ subNodes (seqIfTree (.input "start" CHType.int)
          (.input "end" CHType.int) (.input "step" CHType.int)),
          (isIsNullHead n = true
            → n = isNullN (.input "step" CHType.int))
          ∧ isMultiIfHead n = false ∧ isNullConstNode n = false) :=
  ⟨rfl, sequence_null_guard_amended CHType.int CHType.int CHType.int
    rfl rfl rfl⟩

end GlutenSeq
